import Mathlib

/-!
Shallow embedding of the HireMistri server core (the second, socket-enabled
program in src/unnamed/part_003, lines 185-2856): the proposal and job
lifecycle engine, the dual-ingress messaging channel, the notification
fan-out helper and the daily expiration sweep.

Conventions of the embedding:
* JS strings that may be absent or empty are modelled as plain `String`
  with `""` standing for both `undefined` and the empty string; this is
  faithful because every use site in the source tests such fields only for
  truthiness, and `undefined` and `""` are equally falsy.
* Where the presence of an object key matters independently of its value
  (the `in` operator in the proposal route), the field is an `Option String`.
* Dates are `Nat` tick counts; `new Date()` becomes an explicit `now`
  parameter.
* Mongo collections are `List` stores; `findOne` is `List.find?`,
  `updateOne` updates the first matching element, `insertOne` appends.
* Side channels that the claims do not mention (live-socket emits, outbound
  email) are not part of the state; persisted Notification documents are.
-/

namespace HireMistri

/-- JS `a || b` on strings: `""` (and absent, which we encode as `""`) is falsy. -/
def jsOr (a b : String) : String := if a ≠ "" then a else b

/-- JS truthiness of an optional string: `undefined`, `null` and `""` are falsy. -/
def jsTruthy (o : Option String) : Bool :=
  match o with
  | none => false
  | some s => s ≠ ""

/-- JS `v || null` for string-valued fields: the empty string collapses to null. -/
def jsOrNull (o : Option String) : Option String :=
  match o with
  | none => none
  | some s => if s ≠ "" then some s else none

/-- JS `v.trim()` (the source helper `s`), implemented over the character
list so that it evaluates inside the kernel. -/
def jsTrim (s : String) : String :=
  String.mk ((((s.data).dropWhile Char.isWhitespace).reverse.dropWhile Char.isWhitespace).reverse)

/-- JS `v.toLowerCase()`, implemented over the character list so that it
evaluates inside the kernel. -/
def jsToLower (s : String) : String :=
  String.mk (s.data.map Char.toLower)

/-- Hex-digit test used by `ObjectId.isValid`. -/
def isHexDigit (c : Char) : Bool :=
  (('0' ≤ c) && (c ≤ '9')) || (('a' ≤ c) && (c ≤ 'f')) || (('A' ≤ c) && (c ≤ 'F'))

/-- Model of `ObjectId.isValid`: a 24 character hex string. -/
def isValidObjectId (s : String) : Bool :=
  s.length == 24 && s.data.all isHexDigit

/-- Update the first element of a list satisfying `p` (Mongo `updateOne`). -/
def updateFirstBy {α : Type} (l : List α) (p : α → Bool) (f : α → α) : List α :=
  match l with
  | [] => []
  | a :: rest => if p a then f a :: rest else a :: updateFirstBy rest p f

/-! ## Data model (section 3 of the spec, as stored by the source) -/

/-- A document of the `browseJobs` collection, restricted to the fields the
embedded handlers read or write.  `oid` stands for the Mongo `_id` string. -/
structure JobDoc where
  oid : String
  clientId : String
  postedByUid : String
  postedByEmail : String
  email : String
  title : String
  status : String
  expiresAt : Option Nat
  autoCloseEnabled : Bool
  updatedAt : Nat
  deriving DecidableEq

/-- A document of the `applications` collection (fields used by the routes). -/
structure ApplicationDoc where
  oid : String
  jobId : String
  workerId : String
  clientId : String
  clientEmail : String
  workerEmail : String
  workerName : String
  workerPhone : String
  postedByEmail : String
  proposalText : String
  status : String
  createdAt : Nat
  updatedAt : Nat
  deriving DecidableEq

/-- A document of the `users` collection (fields read by the identity code). -/
structure UserDoc where
  uid : String
  email : String
  displayName : String
  firstName : String
  lastName : String
  phone : String
  deriving DecidableEq

/-- A Firebase Admin user record (fields read by `getWorkerIdentity`). -/
structure FireUser where
  email : String
  displayName : String
  phoneNumber : String
  deriving DecidableEq

/-- A document of the `messages` collection. -/
structure MessageDoc where
  conversationId : String
  senderId : String
  recipientId : String
  jobId : Option String
  message : String
  senderName : String
  recipientName : String
  read : Bool
  createdAt : Nat
  deriving DecidableEq

/-- A document of the `notifications` collection, as built by
`createNotification` (part_003 lines 349-375).  `ntype` renders the source
field `type`. -/
structure NotificationDoc where
  userId : String
  title : String
  message : String
  ntype : String
  jobId : Option String
  link : Option String
  read : Bool
  createdAt : Nat
  deriving DecidableEq

/-! ## Notification fan-out choke point (part_003 lines 349-375) -/

/-- `createNotification(userId, title, message, type, jobId, link)`: returns
`none` when `userId` is falsy (no document persisted), otherwise the
persisted document.  The socket push is a side channel outside the state. -/
def createNotification (userId title message ntype : String)
    (jobId link : Option String) (now : Nat) : Option NotificationDoc :=
  if userId = "" then none
  else some
    { userId := userId
      title := title
      message := message
      ntype := ntype
      jobId := jsOrNull jobId
      link := jsOrNull link
      read := false
      createdAt := now }

/-! ## Conversation identity (part_003 lines 2205-2208) -/

/-- JS `[a, b].sort()` for two strings (lexicographic default comparator). -/
def sortPair (a b : String) : List String :=
  if a ≤ b then [a, b] else [b, a]

/-- `getConversationId(userId1, userId2, jobId)` from the source:
`jobId ? jobId + "_" + ids.join("_") : ids.join("_")`. -/
def getConversationId (userId1 userId2 : String) (jobId : Option String) : String :=
  let ids := sortPair userId1 userId2
  if jsTruthy jobId then jobId.getD "" ++ "_" ++ String.intercalate "_" ids
  else String.intercalate "_" ids

/-! ## Identity resolver (part_003 lines 408-443) -/

/-- Result shape of `getWorkerIdentity`. -/
structure WorkerIdentity where
  email : String
  name : String
  phone : String
  deriving DecidableEq

/-- `getWorkerIdentity(workerId, {usersCollection})`: profile store first
(display name preferred, else first+last), then Firebase Admin for fields
still empty; provider failures yield `fire = none`. -/
def getWorkerIdentity (workerId : String) (users : List UserDoc)
    (fire : Option FireUser) : WorkerIdentity :=
  let out0 : WorkerIdentity := ⟨"", "", ""⟩
  let out1 :=
    match users.find? (fun u => u.uid == workerId) with
    | some u =>
      let nm := jsOr u.displayName
        (String.intercalate " " (([u.firstName, u.lastName]).filter (fun x => x ≠ "")))
      { email := jsTrim (jsToLower (jsOr u.email out0.email))
        name := jsTrim (jsOr (jsOr nm "") out0.name)
        phone := jsTrim (jsOr u.phone out0.phone) }
    | none => out0
  if out1.email ≠ "" ∧ out1.name ≠ "" ∧ out1.phone ≠ "" then out1
  else
    match fire with
    | some rec =>
      { email := jsTrim (jsToLower (jsOr rec.email out1.email))
        name := jsTrim (jsOr rec.displayName out1.name)
        phone := jsTrim (jsOr rec.phoneNumber out1.phone) }
    | none => out1

/-! ## Proposal submit, POST /api/applications (part_003 lines 854-1009) -/

/-- The request body of the proposal route.  Plain `String` fields use `""`
for absent; `status`, `proposalText` and `text` are `Option` because the
route tests key presence with the `in` operator. -/
structure AppBody where
  jobId : String
  workerId : String
  workerEmail : String
  postedByEmail : String
  workerName : String
  workerPhone : String
  clientId : String
  clientEmail : String
  status : Option String
  proposalText : Option String
  text : Option String
  deriving DecidableEq

/-- The conditional writes the route accumulates via `$set`/`$setOnInsert`
and its `setIf` helper: `none` means the key is not written at all. -/
structure AppWrites where
  status : Option String
  proposalText : Option String
  clientId : Option String
  clientEmail : Option String
  workerEmail : Option String
  postedByEmail : Option String
  workerName : Option String
  workerPhone : Option String
  deriving DecidableEq

/-- The `needsWorkerBackfill` gate of the proposal route (lines 912-914): a
single flag — some worker identity field missing on the request AND some
(possibly different) worker identity field missing on the existing
document. -/
def needsWorkerBackfillB (b : AppBody) (existing : Option ApplicationDoc) : Bool :=
  (jsToLower (jsTrim (jsOr b.workerEmail b.postedByEmail)) == "" ||
   jsTrim b.workerName == "" || jsTrim b.workerPhone == "") &&
  (match existing with
   | none => true
   | some ex => ex.workerEmail == "" || ex.workerName == "" || ex.workerPhone == "")

/-- Lines 873-951: input normalisation (`s`/`mail`), client backfill from the
job document, worker backfill via the identity resolver gated by
`needsWorkerBackfill`, then the `setIf` guarded writes (a key is written only
when its value is truthy). -/
def computeAppWrites (b : AppBody) (jobId workerId : String)
    (existing : Option ApplicationDoc) (jobDoc : Option JobDoc)
    (users : List UserDoc) (fire : Option FireUser) : AppWrites :=
  let workerEmailIn0 := jsToLower (jsTrim (jsOr b.workerEmail b.postedByEmail))
  let workerNameIn0 := jsTrim b.workerName
  let workerPhoneIn0 := jsTrim b.workerPhone
  let clientIdIn0 := jsTrim b.clientId
  let clientEmailIn0 := jsToLower (jsTrim b.clientEmail)
  let clientIdIn :=
    if isValidObjectId jobId && (clientIdIn0 == "" || clientEmailIn0 == "") then
      match jobDoc with
      | some jd => if clientIdIn0 == "" then jsTrim (jsOr jd.clientId jd.postedByUid) else clientIdIn0
      | none => clientIdIn0
    else clientIdIn0
  let clientEmailIn :=
    if isValidObjectId jobId && (clientIdIn0 == "" || clientEmailIn0 == "") then
      match jobDoc with
      | some jd =>
        if clientEmailIn0 == "" then jsToLower (jsTrim (jsOr jd.postedByEmail jd.email))
        else clientEmailIn0
      | none => clientEmailIn0
    else clientEmailIn0
  let needsWorkerBackfill := needsWorkerBackfillB b existing
  let backfill := getWorkerIdentity workerId users fire
  let workerEmailIn := if needsWorkerBackfill then jsOr workerEmailIn0 backfill.email else workerEmailIn0
  let workerNameIn := if needsWorkerBackfill then jsOr workerNameIn0 backfill.name else workerNameIn0
  let workerPhoneIn := if needsWorkerBackfill then jsOr workerPhoneIn0 backfill.phone else workerPhoneIn0
  { status := b.status.map (fun v => jsTrim v)
    proposalText :=
      if b.proposalText.isSome || b.text.isSome then
        some (jsTrim (jsOr (b.proposalText.getD "") (b.text.getD "")))
      else none
    clientId := if clientIdIn != "" then some clientIdIn else none
    clientEmail := if clientEmailIn != "" then some clientEmailIn else none
    workerEmail := if workerEmailIn != "" then some workerEmailIn else none
    postedByEmail := if workerEmailIn != "" then some workerEmailIn else none
    workerName := if workerNameIn != "" then some workerNameIn else none
    workerPhone := if workerPhoneIn != "" then some workerPhoneIn else none }

/-- Applying the `$set` part of the upsert to an existing document. -/
def applyAppWrites (ex : ApplicationDoc) (w : AppWrites) (now : Nat) : ApplicationDoc :=
  { ex with
    updatedAt := now
    status := w.status.getD ex.status
    proposalText := w.proposalText.getD ex.proposalText
    clientId := w.clientId.getD ex.clientId
    clientEmail := w.clientEmail.getD ex.clientEmail
    workerEmail := w.workerEmail.getD ex.workerEmail
    postedByEmail := w.postedByEmail.getD ex.postedByEmail
    workerName := w.workerName.getD ex.workerName
    workerPhone := w.workerPhone.getD ex.workerPhone }

/-- The document created on the insert branch of the upsert:
`$setOnInsert = {jobId, workerId, createdAt, status: "pending"}` plus the
conditional writes (which target `$setOnInsert` when the document is new). -/
def insertFromWrites (jobId workerId freshId : String) (w : AppWrites) (now : Nat) :
    ApplicationDoc :=
  { oid := freshId
    jobId := jobId
    workerId := workerId
    clientId := w.clientId.getD ""
    clientEmail := w.clientEmail.getD ""
    workerEmail := w.workerEmail.getD ""
    workerName := w.workerName.getD ""
    workerPhone := w.workerPhone.getD ""
    postedByEmail := w.postedByEmail.getD ""
    proposalText := w.proposalText.getD ""
    status := w.status.getD "pending"
    createdAt := now
    updatedAt := now }

/-- Outcome of the proposal route: HTTP status code, application store after
the call, the document echoed in the response, and the in-app notifications
persisted by the call. -/
structure PostAppResult where
  code : Nat
  apps : List ApplicationDoc
  application : Option ApplicationDoc
  notifs : List NotificationDoc
  deriving DecidableEq

/-- POST /api/applications.  `jobDoc` is the result of the job lookup used
for client backfill, `users`/`fire` feed the identity resolver, `freshId`
is the `_id` Mongo would assign on insert.  Response codes follow the
source: 400 for missing ids and for editing a non-pending proposal, 403 for
the (unreachable) ownership mismatch, 201 on upsert-insert, 200 on update.
The route sends an email on fresh inserts but never calls
`createNotification` (lines 962-999), so `notifs` is `[]` on every path. -/
def postApplication (b : AppBody) (apps : List ApplicationDoc) (jobDoc : Option JobDoc)
    (users : List UserDoc) (fire : Option FireUser) (freshId : String) (now : Nat) :
    PostAppResult :=
  let jobId := jsTrim b.jobId
  let workerId := jsTrim b.workerId
  if jobId == "" then ⟨400, apps, none, []⟩
  else if workerId == "" then ⟨400, apps, none, []⟩
  else
    match apps.find? (fun a => a.jobId == jobId && a.workerId == workerId) with
    | some ex =>
      if jsToLower (jsOr ex.status "pending") != "pending" then ⟨400, apps, none, []⟩
      else if ex.workerId != workerId then ⟨403, apps, none, []⟩
      else
        let w := computeAppWrites b jobId workerId (some ex) jobDoc users fire
        let apps1 := updateFirstBy apps
          (fun a => a.jobId == jobId && a.workerId == workerId)
          (fun a => applyAppWrites a w now)
        ⟨200, apps1, some (applyAppWrites ex w now), []⟩
    | none =>
      let w := computeAppWrites b jobId workerId none jobDoc users fire
      let doc := insertFromWrites jobId workerId freshId w now
      ⟨201, apps ++ [doc], some doc, []⟩

/-! ## Application status transition, PATCH /api/applications/:id
(part_003 lines 1318-1402) -/

/-- Outcome of the application status route. -/
structure PatchAppOut where
  code : Nat
  apps : List ApplicationDoc
  notifs : List NotificationDoc
  deriving DecidableEq

/-- The allowed target set of the application status route. -/
def appAllowedStatuses : List String := ["pending", "accepted", "rejected", "completed"]

/-- JS `s.charAt(0).toUpperCase() + s.slice(1)`. -/
def jsCapitalize (s : String) : String :=
  match s.data with
  | [] => ""
  | c :: rest => String.mk (c.toUpper :: rest)

/-- PATCH /api/applications/:id: 400 on malformed id or a target outside the
allowed set, 404 on unknown id; otherwise unconditionally writes the new
status and `updatedAt`, and fans out one notification to the worker exactly
when the (lower-cased) status actually changed to accepted or rejected. -/
def patchApplication (id : String) (bStatus : String) (apps : List ApplicationDoc)
    (jobs : List JobDoc) (now : Nat) : PatchAppOut :=
  let statusIn := jsTrim (jsToLower (jsOr bStatus ""))
  if ¬ isValidObjectId id then ⟨400, apps, []⟩
  else if ¬ appAllowedStatuses.contains statusIn then ⟨400, apps, []⟩
  else
    match apps.find? (fun a => a.oid == id) with
    | none => ⟨404, apps, []⟩
    | some oldDoc =>
      let oldStatus := jsToLower (jsOr oldDoc.status "pending")
      let statusChanged := oldStatus != statusIn
      let apps1 := updateFirstBy apps (fun a => a.oid == id)
        (fun a => { a with status := statusIn, updatedAt := now })
      -- the route re-reads the updated document; with the first match just
      -- updated this is that document (see find?_updateFirstBy below)
      let doc := (apps1.find? (fun a => a.oid == id)).getD
        { oldDoc with status := statusIn, updatedAt := now }
      let notifs :=
        if statusChanged && (statusIn == "accepted" || statusIn == "rejected") then
          let jobTitle :=
            if isValidObjectId doc.jobId then
              match jobs.find? (fun j => j.oid == doc.jobId) with
              | some jobDoc => jsOr jobDoc.title "the job"
              | none => "the job"
            else "the job"
          if doc.workerId != "" then
            let statusText := if statusIn == "accepted" then "accepted" else "rejected"
            (createNotification doc.workerId
              ("Application " ++ jsCapitalize statusText)
              ("Your application for \"" ++ jobTitle ++ "\" has been " ++ statusText ++ ".")
              (if statusIn == "accepted" then "success" else "info")
              (some doc.jobId) (some ("/jobs/" ++ doc.jobId)) now).toList
          else []
        else []
      ⟨200, apps1, notifs⟩

/-! ## Job status update, PATCH /api/browse-jobs/:id (part_003 lines 1984-2121) -/

/-- Outcome of the job update route. -/
structure PatchJobOut where
  code : Nat
  jobs : List JobDoc
  notifs : List NotificationDoc
  deriving DecidableEq

/-- The allowed status vocabulary of the job route. -/
def jobAllowedStatuses : List String := ["active", "on-hold", "cancelled", "completed"]

/-- The status-transition validation block (lines 2004-2031), returning
`true` when the request may proceed to the update.  The branch structure
mirrors the source: unknown target, terminal current state, the three
allowed-transition branches, then `currentStatus !== newStatus` rejection
(which silently admits same-status requests on non-terminal states). -/
def jobTransitionCheck (cur nw : String) : Bool :=
  if ¬ jobAllowedStatuses.contains nw then false
  else if cur == "cancelled" || cur == "completed" then false
  else if cur == "on-hold" && nw == "active" then true
  else if cur == "active" && (["on-hold", "cancelled", "completed"].contains nw) then true
  else if cur == "on-hold" && (["cancelled"].contains nw) then true
  else if cur != nw then false
  else true

/-- PATCH /api/browse-jobs/:id for a body carrying `clientId` and `status`
(`bStatus = some v` models a body with a `status` key).  After a passing
validation the route persists the update, but its post-update block (line
2071) reads `newStatus`, a `const` scoped to the validation block (lines
2004-2031): with a truthy `status` this raises a ReferenceError, the route
catch answers 500, and the job-status-change notification and email below
that line never execute.  The persisted update survives. -/
def patchBrowseJob (id : String) (bClientId : String) (bStatus : Option String)
    (jobs : List JobDoc) (now : Nat) : PatchJobOut :=
  if ¬ isValidObjectId id then ⟨400, jobs, []⟩
  else
    match jobs.find? (fun j => j.oid == id) with
    | none => ⟨404, jobs, []⟩
    | some job =>
      if bClientId != "" && job.clientId != "" && job.clientId != bClientId then
        ⟨403, jobs, []⟩
      else if jsTruthy bStatus &&
          ! jobTransitionCheck (jsToLower (jsOr job.status "active")) (jsToLower (bStatus.getD "")) then
        ⟨400, jobs, []⟩
      else
        let jobs1 := updateFirstBy jobs (fun j => j.oid == id)
          (fun j =>
            match bStatus with
            | some v => { j with status := v, updatedAt := now }
            | none => { j with updatedAt := now })
        if jsTruthy bStatus then ⟨500, jobs1, []⟩
        else ⟨200, jobs1, []⟩

/-- The transition table claimed by the spec (section 4.2). -/
def specJobTable : List (String × String) :=
  [("active", "on-hold"), ("active", "cancelled"), ("active", "completed"),
   ("on-hold", "active"), ("on-hold", "cancelled")]

/-! ## Messaging, dual ingress (part_003 lines 2292-2371 and 2643-2727) -/

/-- The message payload, shared by both ingress paths. -/
structure MsgBody where
  senderId : String
  recipientId : String
  jobId : String
  message : String
  senderName : String
  recipientName : String
  deriving DecidableEq

/-- Outcome of a message send: `ok = false` is the 400 response (request
path) or the `message_error` emit (socket path); `stored` is the persisted
document; `notifs` the persisted notifications. -/
structure MsgOut where
  ok : Bool
  stored : Option MessageDoc
  notifs : List NotificationDoc
  deriving DecidableEq

/-- POST /api/messages (lines 2292-2371).  The async tail block resolves the
recipient only for the outbound email; the persisted notification depends on
the sender name and the job title. -/
def postMessage (b : MsgBody) (jobs : List JobDoc) (now : Nat) : MsgOut :=
  if b.senderId == "" || b.recipientId == "" || b.message == "" then ⟨false, none, []⟩
  else
    let conversationId := getConversationId b.senderId b.recipientId (some b.jobId)
    let newMessage : MessageDoc :=
      { conversationId := conversationId
        senderId := b.senderId
        recipientId := b.recipientId
        jobId := jsOrNull (some b.jobId)
        message := jsTrim b.message
        senderName := jsOr b.senderName ""
        recipientName := jsOr b.recipientName ""
        read := false
        createdAt := now }
    let jobTitle :=
      if b.jobId != "" && isValidObjectId b.jobId then
        match jobs.find? (fun j => j.oid == b.jobId) with
        | some jobDoc => jobDoc.title
        | none => ""
      else ""
    let senderName := jsOr newMessage.senderName "Someone"
    let notifs :=
      if b.recipientId != "" then
        (createNotification b.recipientId "New Message"
          ("You have a new message from " ++ senderName ++
            (if jobTitle != "" then " about \"" ++ jobTitle ++ "\"" else ""))
          "info" (some b.jobId) none now).toList
      else []
    ⟨true, some newMessage, notifs⟩

/-- socket.on message:send (lines 2643-2727): identical validation, document
shape and notification fan-out; the extra `new_message` emits are live-channel
pushes outside the persisted state. -/
def socketMessageSend (b : MsgBody) (jobs : List JobDoc) (now : Nat) : MsgOut :=
  if b.senderId == "" || b.recipientId == "" || b.message == "" then ⟨false, none, []⟩
  else
    let conversationId := getConversationId b.senderId b.recipientId (some b.jobId)
    let newMessage : MessageDoc :=
      { conversationId := conversationId
        senderId := b.senderId
        recipientId := b.recipientId
        jobId := jsOrNull (some b.jobId)
        message := jsTrim b.message
        senderName := jsOr b.senderName ""
        recipientName := jsOr b.recipientName ""
        read := false
        createdAt := now }
    let jobTitle :=
      if b.jobId != "" && isValidObjectId b.jobId then
        match jobs.find? (fun j => j.oid == b.jobId) with
        | some jobDoc => jobDoc.title
        | none => ""
      else ""
    let senderName := jsOr newMessage.senderName "Someone"
    let notifs :=
      if b.recipientId != "" then
        (createNotification b.recipientId "New Message"
          ("You have a new message from " ++ senderName ++
            (if jobTitle != "" then " about \"" ++ jobTitle ++ "\"" else ""))
          "info" (some b.jobId) none now).toList
      else []
    ⟨true, some newMessage, notifs⟩

/-- Erase the timestamp of a stored message (for modulo-timestamp equality). -/
def stripMsgTime (m : MessageDoc) : MessageDoc := { m with createdAt := 0 }

/-- Erase the timestamp of a stored notification. -/
def stripNotifTime (n : NotificationDoc) : NotificationDoc := { n with createdAt := 0 }

/-! ## Expiration sweep (part_003 lines 2785-2843) -/

/-- The sweep query: `expiresAt <= now`, status not completed/cancelled,
`autoCloseEnabled` true.  A document without `expiresAt` never matches. -/
def expiredMatch (now : Nat) (j : JobDoc) : Bool :=
  (match j.expiresAt with
   | some t => decide (t ≤ now)
   | none => false) &&
  !(j.status == "completed" || j.status == "cancelled") &&
  j.autoCloseEnabled

/-- The expiry notification text. -/
def expiredNotifText (j : JobDoc) : String :=
  "Your job \"" ++ jsOr j.title "Untitled Job" ++ "\" has expired and has been automatically closed."

/-- The notification persisted for one expired job (lines 2807-2816): note
the fifth argument is the dashboard path and the sixth the id string, in
that order. -/
def sweepNoteFor (j : JobDoc) (now : Nat) : List NotificationDoc :=
  if j.clientId != "" then
    (createNotification j.clientId "Job Expired" (expiredNotifText j) "info"
      (some ("/My-Posted-Job-Details/" ++ j.oid)) (some j.oid) now).toList
  else []

/-- The sweep loop body over the snapshot list of expired jobs: flip the
status of each job first, then fan out for it. -/
def sweepGo (jobs : List JobDoc) (expired : List JobDoc) (now : Nat) :
    List JobDoc × List NotificationDoc :=
  match expired with
  | [] => (jobs, [])
  | j :: rest =>
    let jobs1 := updateFirstBy jobs (fun x => x.oid == j.oid)
      (fun x => { x with status := "completed", updatedAt := now })
    let r := sweepGo jobs1 rest now
    (r.1, sweepNoteFor j now ++ r.2)

/-- One run of the scheduled expiration task. -/
def runExpirationSweep (jobs : List JobDoc) (now : Nat) :
    List JobDoc × List NotificationDoc :=
  sweepGo jobs (jobs.filter (expiredMatch now)) now

theorem sortPair_comm (a b : String) : sortPair a b = sortPair b a := by
  unfold sortPair
  rcases le_total a b with h | h
  · by_cases hba : b ≤ a
    · have : a = b := le_antisymm h hba
      subst this; simp
    · simp [h, hba]
  · by_cases hab : a ≤ b
    · have : a = b := le_antisymm hab h
      subst this; simp
    · simp [h, hab]

theorem getConversationId_comm (a b : String) (j : Option String) :
    getConversationId a b j = getConversationId b a j := by
  unfold getConversationId
  rw [sortPair_comm]

lemma string_append_right_cancel {a b t : String} (h : a ++ t = b ++ t) : a = b := by
  have hd : a.data ++ t.data = b.data ++ t.data := by
    have h1 : (a ++ t).data = (b ++ t).data := by rw [h]
    simpa using h1
  have hab : a.data = b.data := List.append_cancel_right hd
  exact congrArg String.mk hab

lemma string_eq_empty_of_length_zero {a : String} (h : a.length = 0) : a = "" := by
  have hd : a.data = [] := List.length_eq_zero.mp h
  exact congrArg String.mk hd

lemma string_append_ne_of_length {a t : String} (ha : a ≠ "") :
    a ++ t ≠ t := by
  intro h
  have hlen : (a ++ t).length = t.length := by rw [h]
  have hsum : a.length + t.length = t.length := by
    simpa [String.length_append] using hlen
  have ha0 : a.length = 0 := by omega
  exact ha (string_eq_empty_of_length_zero ha0)

lemma string_append_underscore_ne_empty (y : String) : y ++ "_" ≠ "" := by
  intro he
  have hd : (y ++ "_").data = ("" : String).data := by rw [he]
  simp at hd

/-- C9 combined statement: symmetry of `getConversationId` in the two
participants, and injectivity in the job context, for job ids that are
actual ids (nonempty strings; the source treats the empty string like an
absent job id, so it is excluded by hypothesis). -/
theorem conversationId_symm_and_ctx_distinct
    (a b : String) (j j1 j2 : Option String)
    (h1 : j1 ≠ some "") (h2 : j2 ≠ some "") (hne : j1 ≠ j2) :
    getConversationId a b j = getConversationId b a j ∧
    getConversationId a b j1 ≠ getConversationId a b j2 := by
  refine ⟨getConversationId_comm a b j, ?_⟩
  unfold getConversationId
  intro h
  match hj1 : j1, hj2 : j2 with
  | none, none => exact hne rfl
  | none, some y =>
      have hy : y ≠ "" := fun hy => h2 (by rw [hy])
      simp [jsTruthy, hy] at h
      exact string_append_ne_of_length (a := y ++ "_")
        (t := String.intercalate "_" (sortPair a b))
        (string_append_underscore_ne_empty y) h.symm
  | some x, none =>
      have hx : x ≠ "" := fun hx => h1 (by rw [hx])
      simp [jsTruthy, hx] at h
      exact string_append_ne_of_length (a := x ++ "_")
        (t := String.intercalate "_" (sortPair a b))
        (string_append_underscore_ne_empty x) h
  | some x, some y =>
      have hx : x ≠ "" := fun hx => h1 (by rw [hx])
      have hy : y ≠ "" := fun hy => h2 (by rw [hy])
      simp [jsTruthy, hx, hy] at h
      have hxy : x ++ "_" = y ++ "_" :=
        string_append_right_cancel (t := String.intercalate "_" (sortPair a b)) h
      have hv : x = y := string_append_right_cancel (t := "_") hxy
      exact hne (by rw [hv])

/-- C9: `conversationId` is symmetric in the participants and distinct
job contexts (job id versus other job id, and job id versus no job id)
yield distinct conversation ids; witness at concrete inputs. -/
theorem conversationId_symm_and_ctx_distinct_witness :
    getConversationId "u2" "u1" (some "job9") = getConversationId "u1" "u2" (some "job9") ∧
    getConversationId "u2" "u1" (some "job9") ≠ getConversationId "u2" "u1" none :=
  ⟨(conversationId_symm_and_ctx_distinct "u2" "u1" (some "job9") (some "job9") none
      (by decide) (by decide) (by decide)).1,
   (conversationId_symm_and_ctx_distinct "u2" "u1" (some "job9") (some "job9") none
      (by decide) (by decide) (by decide)).2⟩

/-! ## Shared lemmas about the store primitives -/

lemma string_append_ne_empty_left {s : String} (t : String) (hs : s ≠ "") :
    s ++ t ≠ "" := by
  intro he
  have hd : (s ++ t).data = ("" : String).data := by rw [he]
  simp only [String.data_append] at hd
  rcases List.append_eq_nil.mp (by simpa using hd) with ⟨h1, _⟩
  exact hs (congrArg String.mk h1)

lemma find?_updateFirstBy {α : Type} (l : List α) (p : α → Bool) (f : α → α) (a : α)
    (h : l.find? p = some a) (hf : ∀ x, p x = true → p (f x) = true) :
    (updateFirstBy l p f).find? p = some (f a) := by
  induction l with
  | nil => simp at h
  | cons b rest ih =>
    by_cases hb : p b = true
    · have hab : b = a := by
        rw [List.find?_cons_of_pos _ hb] at h
        exact Option.some.inj h
      subst hab
      rw [updateFirstBy, if_pos hb]
      exact List.find?_cons_of_pos _ (hf b hb)
    · have hb' : p b = false := by simpa using hb
      rw [List.find?_cons_of_neg _ (by simp [hb'])] at h
      rw [updateFirstBy, if_neg (by simp [hb'])]
      rw [List.find?_cons_of_neg _ (by simp [hb'])]
      exact ih h

/-! ## C2: dual-ingress equivalence of the two message paths -/

/-- C2: for every payload, the request/response path and the socket path
validate identically, persist stored Message documents equal modulo the
timestamp, and each triggers the notification fan-out exactly once per
successful call, addressed to the recipient. -/
theorem message_dual_ingress_equivalence (b : MsgBody) (jobs : List JobDoc) (n1 n2 : Nat) :
    (postMessage b jobs n1).stored.map stripMsgTime
      = (socketMessageSend b jobs n2).stored.map stripMsgTime ∧
    (postMessage b jobs n1).notifs.map stripNotifTime
      = (socketMessageSend b jobs n2).notifs.map stripNotifTime ∧
    (postMessage b jobs n1).ok = (socketMessageSend b jobs n2).ok ∧
    ((postMessage b jobs n1).ok = true →
      (postMessage b jobs n1).notifs.length = 1 ∧
      (socketMessageSend b jobs n2).notifs.length = 1 ∧
      ∀ n ∈ (postMessage b jobs n1).notifs, n.userId = b.recipientId) := by
  by_cases hv : (b.senderId == "" || b.recipientId == "" || b.message == "") = true
  · simp [postMessage, socketMessageSend, hv]
  · have hv' : (b.senderId == "" || b.recipientId == "" || b.message == "") = false := by
      simpa using hv
    have hrec : ¬ b.recipientId = "" := by
      intro h
      simp [h] at hv'
    simp [postMessage, socketMessageSend, hv', stripMsgTime, stripNotifTime,
      createNotification, hrec]

/-- C2 witness: a concrete payload through both paths. -/
theorem message_dual_ingress_equivalence_witness :
    (postMessage ⟨"s1", "r1", "", "hello", "", ""⟩ [] 3).notifs.length = 1 ∧
    (socketMessageSend ⟨"s1", "r1", "", "hello", "", ""⟩ [] 7).notifs.length = 1 ∧
    ∀ n ∈ (postMessage ⟨"s1", "r1", "", "hello", "", ""⟩ [] 3).notifs, n.userId = "r1" :=
  (message_dual_ingress_equivalence ⟨"s1", "r1", "", "hello", "", ""⟩ [] 3 7).2.2.2 (by decide)

/-! ## Lemmas about the expiration sweep -/

lemma sweepGo_snd (expired : List JobDoc) (jobs : List JobDoc) (now : Nat) :
    (sweepGo jobs expired now).2 = expired.bind (fun j => sweepNoteFor j now) := by
  induction expired generalizing jobs with
  | nil => rfl
  | cons j rest ih => simp [sweepGo, ih]

lemma updateFirstBy_eq_map_of_nodup (l : List JobDoc) (k : String) (f : JobDoc → JobDoc)
    (hoid : ∀ x, (f x).oid = x.oid) (hnd : (l.map JobDoc.oid).Nodup) :
    updateFirstBy l (fun x => x.oid == k) f
      = l.map (fun x => if x.oid == k then f x else x) := by
  induction l with
  | nil => rfl
  | cons a rest ih =>
    rw [List.map_cons] at hnd
    by_cases ha : a.oid = k
    · rw [updateFirstBy, if_pos (by simp [ha]), List.map_cons, if_pos (by simp [ha])]
      have hnotin : a.oid ∉ rest.map JobDoc.oid := (List.nodup_cons.mp hnd).1
      have hrest : ∀ x ∈ rest, (if x.oid == k then f x else x) = id x := by
        intro x hx
        have hxk : x.oid ≠ k := by
          intro hxk
          have hmem : x.oid ∈ rest.map JobDoc.oid := List.mem_map_of_mem _ hx
          rw [hxk, ← ha] at hmem
          exact hnotin hmem
        simp [hxk]
      rw [List.map_congr_left hrest, List.map_id]
    · rw [updateFirstBy, if_neg (by simp [ha]), List.map_cons, if_neg (by simp [ha])]
      rw [ih (List.nodup_cons.mp hnd).2]

lemma map_oid_invariant (S : List JobDoc) (g : JobDoc → JobDoc)
    (hg : ∀ x, (g x).oid = x.oid) :
    (S.map g).map JobDoc.oid = S.map JobDoc.oid := by
  rw [List.map_map]
  exact List.map_congr_left (fun a _ => hg a)

lemma sweepGo_fst_general (expired : List JobDoc) (S : List JobDoc) (now : Nat)
    (hnd : (S.map JobDoc.oid).Nodup) :
    (sweepGo S expired now).1
      = S.map (fun x =>
          if expired.any (fun j => x.oid == j.oid) then
            { x with status := "completed", updatedAt := now }
          else x) := by
  induction expired generalizing S with
  | nil => simp [sweepGo]
  | cons j rest ih =>
    have hup : ∀ x : JobDoc,
        ((if x.oid == j.oid then { x with status := "completed", updatedAt := now } else x) : JobDoc).oid
          = x.oid := by
      intro x; by_cases h : x.oid == j.oid <;> simp [h]
    rw [sweepGo]
    simp only
    rw [updateFirstBy_eq_map_of_nodup S j.oid
      (fun x => { x with status := "completed", updatedAt := now }) (fun x => rfl) hnd]
    rw [ih _ (by rw [map_oid_invariant _ _ hup]; exact hnd)]
    rw [List.map_map]
    apply List.map_congr_left
    intro x _
    by_cases hx : x.oid = j.oid
    · simp [Function.comp, hx]
    · simp [Function.comp, hx]

lemma runExpirationSweep_fst (jobs : List JobDoc) (now : Nat)
    (hnd : (jobs.map JobDoc.oid).Nodup) :
    (runExpirationSweep jobs now).1
      = jobs.map (fun x =>
          if expiredMatch now x then { x with status := "completed", updatedAt := now }
          else x) := by
  rw [runExpirationSweep, sweepGo_fst_general _ _ _ hnd]
  apply List.map_congr_left
  intro x hx
  by_cases hex : expiredMatch now x = true
  · have : (jobs.filter (expiredMatch now)).any (fun j => x.oid == j.oid) = true := by
      rw [List.any_eq_true]
      exact ⟨x, List.mem_filter.mpr ⟨hx, hex⟩, by simp⟩
    simp [this, hex]
  · have hnone : (jobs.filter (expiredMatch now)).any (fun j => x.oid == j.oid) = false := by
      rw [List.any_eq_false]
      intro j hj
      rcases List.mem_filter.mp hj with ⟨hjm, hje⟩
      intro heq
      have hinj := List.inj_on_of_nodup_map hnd hx hjm (by simpa using heq)
      rw [hinj] at hex
      exact hex hje
    simp [hnone, hex]

lemma expiredMatch_after_run (now : Nat) (x : JobDoc) :
    expiredMatch now
      (if expiredMatch now x then { x with status := "completed", updatedAt := now } else x)
      = false := by
  by_cases h : expiredMatch now x = true
  · rw [if_pos h]
    simp [expiredMatch]
  · rw [if_neg h]
    simpa using h

lemma runExpirationSweep_second (jobs : List JobDoc) (now : Nat)
    (hnd : (jobs.map JobDoc.oid).Nodup) :
    runExpirationSweep (runExpirationSweep jobs now).1 now
      = ((runExpirationSweep jobs now).1, []) := by
  have hfst := runExpirationSweep_fst jobs now hnd
  have hfil : ((runExpirationSweep jobs now).1).filter (expiredMatch now) = [] := by
    rw [hfst, List.filter_eq_nil]
    intro a ha
    rcases List.mem_map.mp ha with ⟨x, _, hxa⟩
    rw [← hxa]
    simp [expiredMatch_after_run]
  rw [runExpirationSweep, hfil]
  rfl

lemma bind_sweepNoteFor_length (l : List JobDoc) (now : Nat)
    (h : ∀ j ∈ l, j.clientId ≠ "") :
    (l.bind (fun j => sweepNoteFor j now)).length = l.length := by
  induction l with
  | nil => rfl
  | cons j rest ih =>
    have hj : j.clientId ≠ "" := h j (by simp)
    simp only [List.cons_bind, List.length_append]
    rw [ih (fun x hx => h x (by simp [hx]))]
    simp [sweepNoteFor, createNotification, hj]
    omega

/-- C8 (amended): one sweep flips every eligible job to completed and fans
out once per eligible job that has a client id (jobs without one are closed
silently); a second run with the same clock matches nothing, so it changes
no job and persists no notification.  Mongo `_id`s are unique, hence the
no-duplicate hypothesis on the store. -/
theorem sweep_twice_single_close_single_fanout (jobs : List JobDoc) (now : Nat)
    (hnd : (jobs.map JobDoc.oid).Nodup) :
    (runExpirationSweep jobs now).1
      = jobs.map (fun x =>
          if expiredMatch now x then { x with status := "completed", updatedAt := now }
          else x) ∧
    (runExpirationSweep jobs now).2
      = (jobs.filter (expiredMatch now)).bind (fun j => sweepNoteFor j now) ∧
    runExpirationSweep (runExpirationSweep jobs now).1 now
      = ((runExpirationSweep jobs now).1, []) ∧
    ((∀ j ∈ jobs.filter (expiredMatch now), j.clientId ≠ "") →
      (runExpirationSweep jobs now).2.length = (jobs.filter (expiredMatch now)).length ∧
      ∀ n ∈ (runExpirationSweep jobs now).2, ∃ j, j ∈ jobs ∧ expiredMatch now j = true ∧
        n.userId = j.clientId ∧ n.title = "Job Expired") := by
  refine ⟨runExpirationSweep_fst jobs now hnd, sweepGo_snd _ _ _,
    runExpirationSweep_second jobs now hnd, ?_⟩
  intro hcl
  constructor
  · rw [runExpirationSweep, sweepGo_snd]
    exact bind_sweepNoteFor_length _ now hcl
  · intro n hn
    rw [runExpirationSweep, sweepGo_snd] at hn
    rcases List.mem_bind.mp hn with ⟨j, hjf, hnj⟩
    rcases List.mem_filter.mp hjf with ⟨hjm, hje⟩
    refine ⟨j, hjm, hje, ?_⟩
    by_cases hc : j.clientId = ""
    · simp [sweepNoteFor, hc] at hnj
    · simp [sweepNoteFor, createNotification, hc] at hnj
      subst hnj
      exact ⟨rfl, rfl⟩

/-- C8 counterexample to the claim as stated: an eligible job (matches the
sweep query) whose document has no `clientId` is closed by the sweep but
gets zero expiry notifications, not exactly one. -/
theorem sweep_missing_client_counterexample :
    expiredMatch 0 ⟨"j1", "", "", "", "", "T", "active", some 0, true, 0⟩ = true ∧
    (runExpirationSweep [⟨"j1", "", "", "", "", "T", "active", some 0, true, 0⟩] 0).2 = [] ∧
    (runExpirationSweep [⟨"j1", "", "", "", "", "T", "active", some 0, true, 0⟩] 0).1
      = [⟨"j1", "", "", "", "", "T", "completed", some 0, true, 0⟩] := by
  refine ⟨rfl, rfl, rfl⟩

/-- C8 witness: a concrete store with one eligible job owned by a client. -/
theorem sweep_twice_single_close_single_fanout_witness :
    runExpirationSweep
        (runExpirationSweep [(⟨"j2", "c1", "", "", "", "T", "active", some 0, true, 0⟩ : JobDoc)] 0).1 0
      = ((runExpirationSweep [(⟨"j2", "c1", "", "", "", "T", "active", some 0, true, 0⟩ : JobDoc)] 0).1, []) ∧
    (runExpirationSweep [(⟨"j2", "c1", "", "", "", "T", "active", some 0, true, 0⟩ : JobDoc)] 0).2.length
      = ([(⟨"j2", "c1", "", "", "", "T", "active", some 0, true, 0⟩ : JobDoc)].filter (expiredMatch 0)).length := by
  have h := sweep_twice_single_close_single_fanout
    [(⟨"j2", "c1", "", "", "", "T", "active", some 0, true, 0⟩ : JobDoc)] 0 (by decide)
  exact ⟨h.2.2.1, (h.2.2.2 (by decide)).1⟩

/-- C10: every notification persisted by the sweep carries the dashboard
path in its `jobId` field and the job id string in its `link` field — the
fifth and sixth arguments of `createNotification` are passed in swapped
order by the sweep (source lines 2807-2816). -/
theorem sweep_notification_swapped_fields (jobs : List JobDoc) (now : Nat)
    (hoid : ∀ j ∈ jobs, j.oid ≠ "") :
    ∀ n ∈ (runExpirationSweep jobs now).2, ∃ j, j ∈ jobs ∧ expiredMatch now j = true ∧
      j.clientId ≠ "" ∧ n.userId = j.clientId ∧
      n.jobId = some ("/My-Posted-Job-Details/" ++ j.oid) ∧ n.link = some j.oid := by
  intro n hn
  rw [runExpirationSweep, sweepGo_snd] at hn
  rcases List.mem_bind.mp hn with ⟨j, hjf, hnj⟩
  rcases List.mem_filter.mp hjf with ⟨hjm, hje⟩
  by_cases hc : j.clientId = ""
  · simp [sweepNoteFor, hc] at hnj
  · refine ⟨j, hjm, hje, hc, ?_⟩
    simp [sweepNoteFor, createNotification, hc] at hnj
    subst hnj
    refine ⟨rfl, ?_, ?_⟩
    · show jsOrNull (some ("/My-Posted-Job-Details/" ++ j.oid)) = _
      have hne : ("/My-Posted-Job-Details/" ++ j.oid) ≠ "" :=
        string_append_ne_empty_left j.oid (by decide)
      simp [jsOrNull, hne]
    · show jsOrNull (some j.oid) = _
      simp [jsOrNull, hoid j hjm]

/-- C10 witness: a concrete expired job; the persisted notification has the
dashboard path under `jobId` and the raw id under `link`. -/
theorem sweep_notification_swapped_fields_witness :
    ∃ j, j ∈ [(⟨"jid1", "c9", "", "", "", "T", "active", some 5, true, 0⟩ : JobDoc)] ∧
      expiredMatch 10 j = true ∧ j.clientId ≠ "" ∧
      NotificationDoc.userId
        ⟨"c9", "Job Expired",
         "Your job \"T\" has expired and has been automatically closed.", "info",
         some "/My-Posted-Job-Details/jid1", some "jid1", false, 10⟩ = j.clientId ∧
      NotificationDoc.jobId
        ⟨"c9", "Job Expired",
         "Your job \"T\" has expired and has been automatically closed.", "info",
         some "/My-Posted-Job-Details/jid1", some "jid1", false, 10⟩
        = some ("/My-Posted-Job-Details/" ++ j.oid) ∧
      NotificationDoc.link
        ⟨"c9", "Job Expired",
         "Your job \"T\" has expired and has been automatically closed.", "info",
         some "/My-Posted-Job-Details/jid1", some "jid1", false, 10⟩ = some j.oid :=
  sweep_notification_swapped_fields
    [(⟨"jid1", "c9", "", "", "", "T", "active", some 5, true, 0⟩ : JobDoc)] 10
    (by decide) _ (by decide)

/-! ## C5: the job status transition table -/

lemma jobTransitionCheck_iff (cur nw : String) :
    jobTransitionCheck cur nw = true ↔
      ((cur, nw) ∈ specJobTable ∨ (cur = nw ∧ (cur = "active" ∨ cur = "on-hold"))) := by
  unfold jobTransitionCheck specJobTable
  split_ifs with h1 h2 h3 h4 h5 h6 <;>
    simp_all [jobAllowedStatuses, List.contains, Prod.ext_iff] <;>
    try tauto
  all_goals (rcases h2 with h | h <;> subst h <;> simp_all) <;>
    (intro he <;> subst he <;> simp)

/-- C5 (amended): on a well-formed id, an existing job and a passing
ownership check, a status-bearing request is rejected with 400 and an
untouched store exactly when the validation block refuses the transition;
the validation accepts precisely the table of section 4.2 plus same-status
requests on non-terminal states; and every request that passes validation
persists the new status and `updatedAt` but answers 500 (the post-update
block reads the block-scoped `newStatus`, a ReferenceError caught by the
route catch), so no in-table transition ever reports success. -/
theorem job_status_transition_behavior
    (id bClientId v : String) (jobs : List JobDoc) (job : JobDoc) (now : Nat)
    (hid : isValidObjectId id = true)
    (hfind : jobs.find? (fun j => j.oid == id) = some job)
    (hown : (bClientId != "" && job.clientId != "" && job.clientId != bClientId) = false)
    (hv : v ≠ "") :
    (jobTransitionCheck (jsToLower (jsOr job.status "active")) (jsToLower v) = false →
      patchBrowseJob id bClientId (some v) jobs now = ⟨400, jobs, []⟩) ∧
    (jobTransitionCheck (jsToLower (jsOr job.status "active")) (jsToLower v) = true →
      patchBrowseJob id bClientId (some v) jobs now
        = ⟨500,
           updateFirstBy jobs (fun j => j.oid == id)
             (fun j => { j with status := v, updatedAt := now }),
           []⟩) ∧
    (∀ cur nw, jobTransitionCheck cur nw = true ↔
      ((cur, nw) ∈ specJobTable ∨ (cur = nw ∧ (cur = "active" ∨ cur = "on-hold")))) := by
  refine ⟨?_, ?_, jobTransitionCheck_iff⟩
  · intro hchk
    simp [patchBrowseJob, hid, hfind, hown, jsTruthy, hv, hchk]
  · intro hchk
    simp [patchBrowseJob, hid, hfind, hown, jsTruthy, hv, hchk]

/-- C5 counterexample to the claim as stated: an `active -> active` request
is outside the table of section 4.2, yet it is not rejected with a
validation error and it does not leave the job unchanged — the job is
rewritten (`updatedAt` moves) and the response is 500, not 400. -/
theorem job_status_same_status_counterexample :
    (patchBrowseJob "aaaaaaaaaaaaaaaaaaaaaaaa" "" (some "active")
        [(⟨"aaaaaaaaaaaaaaaaaaaaaaaa", "", "", "", "", "T", "active", none, false, 0⟩ : JobDoc)] 1).code
      = 500 ∧
    (patchBrowseJob "aaaaaaaaaaaaaaaaaaaaaaaa" "" (some "active")
        [(⟨"aaaaaaaaaaaaaaaaaaaaaaaa", "", "", "", "", "T", "active", none, false, 0⟩ : JobDoc)] 1).code
      ≠ 400 ∧
    (patchBrowseJob "aaaaaaaaaaaaaaaaaaaaaaaa" "" (some "active")
        [(⟨"aaaaaaaaaaaaaaaaaaaaaaaa", "", "", "", "", "T", "active", none, false, 0⟩ : JobDoc)] 1).jobs
      ≠ [(⟨"aaaaaaaaaaaaaaaaaaaaaaaa", "", "", "", "", "T", "active", none, false, 0⟩ : JobDoc)] ∧
    ("active", "active") ∉ specJobTable := by
  refine ⟨rfl, by decide, by decide, by decide⟩

/-- C5 witness: an in-table transition (`active -> completed`) persists the
update and answers 500. -/
theorem job_status_transition_behavior_witness :
    patchBrowseJob "bbbbbbbbbbbbbbbbbbbbbbbb" "" (some "completed")
        [(⟨"bbbbbbbbbbbbbbbbbbbbbbbb", "c1", "", "", "", "T", "active", none, false, 0⟩ : JobDoc)] 2
      = ⟨500,
         updateFirstBy
           [(⟨"bbbbbbbbbbbbbbbbbbbbbbbb", "c1", "", "", "", "T", "active", none, false, 0⟩ : JobDoc)]
           (fun j => j.oid == "bbbbbbbbbbbbbbbbbbbbbbbb")
           (fun j => { j with status := "completed", updatedAt := 2 }),
         []⟩ :=
  (job_status_transition_behavior "bbbbbbbbbbbbbbbbbbbbbbbb" "" "completed"
      [(⟨"bbbbbbbbbbbbbbbbbbbbbbbb", "c1", "", "", "", "T", "active", none, false, 0⟩ : JobDoc)]
      (⟨"bbbbbbbbbbbbbbbbbbbbbbbb", "c1", "", "", "", "T", "active", none, false, 0⟩ : JobDoc) 2
      (by decide) (by decide) (by decide) (by decide)).2.1 (by decide)

/-! ## C6: application status transitions -/

/-- C6: with a well-formed id, the application status route rejects targets
outside the allowed set with 400 and an untouched store, answers 404 for an
unknown id, and otherwise succeeds from any current status: the stored
document ends with the requested status and a fresh `updatedAt`, so any of
the four statuses is reachable from any other in one call, and a
same-status call keeps the status while still updating `updatedAt`. -/
theorem application_status_any_to_any
    (id bStatus : String) (apps : List ApplicationDoc) (jobs : List JobDoc) (now : Nat)
    (hid : isValidObjectId id = true) :
    (appAllowedStatuses.contains (jsTrim (jsToLower (jsOr bStatus ""))) = false →
      patchApplication id bStatus apps jobs now = ⟨400, apps, []⟩) ∧
    (appAllowedStatuses.contains (jsTrim (jsToLower (jsOr bStatus ""))) = true →
      apps.find? (fun a => a.oid == id) = none →
      patchApplication id bStatus apps jobs now = ⟨404, apps, []⟩) ∧
    (∀ oldDoc, appAllowedStatuses.contains (jsTrim (jsToLower (jsOr bStatus ""))) = true →
      apps.find? (fun a => a.oid == id) = some oldDoc →
      (patchApplication id bStatus apps jobs now).code = 200 ∧
      (patchApplication id bStatus apps jobs now).apps.find? (fun a => a.oid == id)
        = some { oldDoc with status := jsTrim (jsToLower (jsOr bStatus "")), updatedAt := now } ∧
      (oldDoc.status = jsTrim (jsToLower (jsOr bStatus "")) →
        ∀ d, (patchApplication id bStatus apps jobs now).apps.find? (fun a => a.oid == id)
            = some d → d.status = oldDoc.status ∧ d.updatedAt = now)) := by
  refine ⟨?_, ?_, ?_⟩
  · intro h
    have h' : jsTrim (jsToLower (jsOr bStatus "")) ∉ appAllowedStatuses := by simpa using h
    simp [patchApplication, hid, h']
  · intro h hfind
    have h' : jsTrim (jsToLower (jsOr bStatus "")) ∈ appAllowedStatuses := by simpa using h
    simp [patchApplication, hid, h', hfind]
  · intro oldDoc h hfind
    have h' : jsTrim (jsToLower (jsOr bStatus "")) ∈ appAllowedStatuses := by simpa using h
    have hupd : (updateFirstBy apps (fun a => a.oid == id)
        (fun a => { a with status := jsTrim (jsToLower (jsOr bStatus "")), updatedAt := now })).find?
          (fun a => a.oid == id)
        = some { oldDoc with status := jsTrim (jsToLower (jsOr bStatus "")), updatedAt := now } :=
      find?_updateFirstBy apps _ _ oldDoc hfind (fun x hx => hx)
    refine ⟨?_, ?_, ?_⟩
    · simp [patchApplication, hid, h', hfind]
    · simp [patchApplication, hid, h', hfind, hupd]
    · intro hsame d hd
      have hres : (patchApplication id bStatus apps jobs now).apps.find? (fun a => a.oid == id)
          = some { oldDoc with status := jsTrim (jsToLower (jsOr bStatus "")), updatedAt := now } := by
        simp [patchApplication, hid, h', hfind, hupd]
      rw [hres] at hd
      rcases Option.some.inj hd with rfl
      exact ⟨hsame.symm, rfl⟩

/-- C6 witness: a `completed -> pending` call (reachable despite being no
job-table transition), returning 200 and rewriting status and `updatedAt`. -/
theorem application_status_any_to_any_witness :
    (patchApplication "aaaaaaaaaaaaaaaaaaaaaaaa" "pending"
        [(⟨"aaaaaaaaaaaaaaaaaaaaaaaa", "j1", "w1", "", "", "", "", "", "", "", "completed", 0, 0⟩ : ApplicationDoc)]
        [] 7).code = 200 ∧
    (patchApplication "aaaaaaaaaaaaaaaaaaaaaaaa" "pending"
        [(⟨"aaaaaaaaaaaaaaaaaaaaaaaa", "j1", "w1", "", "", "", "", "", "", "", "completed", 0, 0⟩ : ApplicationDoc)]
        [] 7).apps.find? (fun a => a.oid == "aaaaaaaaaaaaaaaaaaaaaaaa")
      = some { (⟨"aaaaaaaaaaaaaaaaaaaaaaaa", "j1", "w1", "", "", "", "", "", "", "", "completed", 0, 0⟩ : ApplicationDoc) with
               status := jsTrim (jsToLower (jsOr "pending" "")), updatedAt := 7 } := by
  have h := (application_status_any_to_any "aaaaaaaaaaaaaaaaaaaaaaaa" "pending"
      [(⟨"aaaaaaaaaaaaaaaaaaaaaaaa", "j1", "w1", "", "", "", "", "", "", "", "completed", 0, 0⟩ : ApplicationDoc)]
      [] 7 (by decide)).2.2
      (⟨"aaaaaaaaaaaaaaaaaaaaaaaa", "j1", "w1", "", "", "", "", "", "", "", "completed", 0, 0⟩ : ApplicationDoc)
      (by decide) (by decide)
  exact ⟨h.1, h.2.1⟩

/-! ## Path lemmas for the proposal route -/

lemma postApplication_nonpending_path
    (b : AppBody) (apps : List ApplicationDoc) (jobDoc : Option JobDoc)
    (users : List UserDoc) (fire : Option FireUser) (freshId : String) (now : Nat)
    (ex : ApplicationDoc)
    (hj : jsTrim b.jobId ≠ "") (hw : jsTrim b.workerId ≠ "")
    (hfind : apps.find?
        (fun a => a.jobId == jsTrim b.jobId && a.workerId == jsTrim b.workerId) = some ex)
    (hpend : jsToLower (jsOr ex.status "pending") ≠ "pending") :
    postApplication b apps jobDoc users fire freshId now = ⟨400, apps, none, []⟩ := by
  simp [postApplication, hj, hw, hfind, hpend]

lemma postApplication_update_path
    (b : AppBody) (apps : List ApplicationDoc) (jobDoc : Option JobDoc)
    (users : List UserDoc) (fire : Option FireUser) (freshId : String) (now : Nat)
    (ex : ApplicationDoc)
    (hj : jsTrim b.jobId ≠ "") (hw : jsTrim b.workerId ≠ "")
    (hfind : apps.find?
        (fun a => a.jobId == jsTrim b.jobId && a.workerId == jsTrim b.workerId) = some ex)
    (hpend : jsToLower (jsOr ex.status "pending") = "pending") :
    postApplication b apps jobDoc users fire freshId now
      = ⟨200,
         updateFirstBy apps
           (fun a => a.jobId == jsTrim b.jobId && a.workerId == jsTrim b.workerId)
           (fun a => applyAppWrites a
             (computeAppWrites b (jsTrim b.jobId) (jsTrim b.workerId) (some ex) jobDoc users fire)
             now),
         some (applyAppWrites ex
           (computeAppWrites b (jsTrim b.jobId) (jsTrim b.workerId) (some ex) jobDoc users fire)
           now),
         []⟩ := by
  have hp := List.find?_some hfind
  have hwid : ex.workerId = jsTrim b.workerId := by
    simp only [Bool.and_eq_true, beq_iff_eq] at hp
    exact hp.2
  simp [postApplication, hj, hw, hfind, hpend, hwid]

lemma postApplication_insert_path
    (b : AppBody) (apps : List ApplicationDoc) (jobDoc : Option JobDoc)
    (users : List UserDoc) (fire : Option FireUser) (freshId : String) (now : Nat)
    (hj : jsTrim b.jobId ≠ "") (hw : jsTrim b.workerId ≠ "")
    (hfind : apps.find?
        (fun a => a.jobId == jsTrim b.jobId && a.workerId == jsTrim b.workerId) = none) :
    postApplication b apps jobDoc users fire freshId now
      = ⟨201,
         apps ++ [insertFromWrites (jsTrim b.jobId) (jsTrim b.workerId) freshId
           (computeAppWrites b (jsTrim b.jobId) (jsTrim b.workerId) none jobDoc users fire) now],
         some (insertFromWrites (jsTrim b.jobId) (jsTrim b.workerId) freshId
           (computeAppWrites b (jsTrim b.jobId) (jsTrim b.workerId) none jobDoc users fire) now),
         []⟩ := by
  simp [postApplication, hj, hw, hfind]

/-! ## C3: proposal route status codes -/

/-- C3 (amended): submitting against an existing proposal whose status is
not pending is rejected with HTTP 400 (not 409 — the route reserves 409 for
the duplicate-key race) and leaves the store unchanged; with no existing
document the response is 201; updating a pending one answers 200. -/
theorem proposal_route_status_codes
    (b : AppBody) (apps : List ApplicationDoc) (jobDoc : Option JobDoc)
    (users : List UserDoc) (fire : Option FireUser) (freshId : String) (now : Nat)
    (hj : jsTrim b.jobId ≠ "") (hw : jsTrim b.workerId ≠ "") :
    (∀ ex, apps.find?
        (fun a => a.jobId == jsTrim b.jobId && a.workerId == jsTrim b.workerId) = some ex →
      jsToLower (jsOr ex.status "pending") ≠ "pending" →
      postApplication b apps jobDoc users fire freshId now = ⟨400, apps, none, []⟩) ∧
    (apps.find?
        (fun a => a.jobId == jsTrim b.jobId && a.workerId == jsTrim b.workerId) = none →
      (postApplication b apps jobDoc users fire freshId now).code = 201) ∧
    (∀ ex, apps.find?
        (fun a => a.jobId == jsTrim b.jobId && a.workerId == jsTrim b.workerId) = some ex →
      jsToLower (jsOr ex.status "pending") = "pending" →
      (postApplication b apps jobDoc users fire freshId now).code = 200) := by
  refine ⟨?_, ?_, ?_⟩
  · intro ex hfind hpend
    exact postApplication_nonpending_path b apps jobDoc users fire freshId now ex hj hw hfind hpend
  · intro hfind
    rw [postApplication_insert_path b apps jobDoc users fire freshId now hj hw hfind]
  · intro ex hfind hpend
    rw [postApplication_update_path b apps jobDoc users fire freshId now ex hj hw hfind hpend]

/-- C3 counterexample to the claim as stated: editing a non-pending
(accepted) proposal is rejected with status 400, not the claimed 409, and
the store is unchanged. -/
theorem proposal_nonpending_edit_counterexample :
    (postApplication ⟨"j1", "w1", "", "", "", "", "", "", none, none, none⟩
        [(⟨"x1", "j1", "w1", "", "", "", "", "", "", "", "accepted", 0, 0⟩ : ApplicationDoc)]
        none [] none "F" 9).code = 400 ∧
    (postApplication ⟨"j1", "w1", "", "", "", "", "", "", none, none, none⟩
        [(⟨"x1", "j1", "w1", "", "", "", "", "", "", "", "accepted", 0, 0⟩ : ApplicationDoc)]
        none [] none "F" 9).code ≠ 409 ∧
    (postApplication ⟨"j1", "w1", "", "", "", "", "", "", none, none, none⟩
        [(⟨"x1", "j1", "w1", "", "", "", "", "", "", "", "accepted", 0, 0⟩ : ApplicationDoc)]
        none [] none "F" 9).apps
      = [(⟨"x1", "j1", "w1", "", "", "", "", "", "", "", "accepted", 0, 0⟩ : ApplicationDoc)] := by
  refine ⟨by decide, by decide, by decide⟩

/-- C3 witness: a fresh submit answers 201 and updating a pending one 200. -/
theorem proposal_route_status_codes_witness :
    (postApplication ⟨"j1", "w1", "", "", "", "", "", "", none, none, none⟩ [] none [] none "F" 9).code
      = 201 ∧
    (postApplication ⟨"j1", "w1", "", "", "", "", "", "", none, none, none⟩
        [(⟨"x1", "j1", "w1", "", "", "", "", "", "", "", "pending", 0, 0⟩ : ApplicationDoc)]
        none [] none "F" 9).code = 200 :=
  ⟨(proposal_route_status_codes ⟨"j1", "w1", "", "", "", "", "", "", none, none, none⟩ [] none [] none
      "F" 9 (by decide) (by decide)).2.1 (by decide),
   (proposal_route_status_codes ⟨"j1", "w1", "", "", "", "", "", "", none, none, none⟩
      [(⟨"x1", "j1", "w1", "", "", "", "", "", "", "", "pending", 0, 0⟩ : ApplicationDoc)] none [] none
      "F" 9 (by decide) (by decide)).2.2
      (⟨"x1", "j1", "w1", "", "", "", "", "", "", "", "pending", 0, 0⟩ : ApplicationDoc)
      (by decide) (by decide)⟩

/-! ## C4: status of a freshly inserted proposal -/

/-- C4 (amended): on a first submit the inserted document has status
`pending` exactly when the request body carries no `status` key; a body
that does carry one (the route routes it into `$setOnInsert`, overwriting
the default) makes the trimmed request value the inserted status. -/
theorem proposal_insert_status_default
    (b : AppBody) (apps : List ApplicationDoc) (jobDoc : Option JobDoc)
    (users : List UserDoc) (fire : Option FireUser) (freshId : String) (now : Nat)
    (hj : jsTrim b.jobId ≠ "") (hw : jsTrim b.workerId ≠ "")
    (hfind : apps.find?
        (fun a => a.jobId == jsTrim b.jobId && a.workerId == jsTrim b.workerId) = none) :
    (b.status = none →
      ∃ d, (postApplication b apps jobDoc users fire freshId now).application = some d ∧
        d.status = "pending") ∧
    (∀ v, b.status = some v →
      ∃ d, (postApplication b apps jobDoc users fire freshId now).application = some d ∧
        d.status = jsTrim v) := by
  rw [postApplication_insert_path b apps jobDoc users fire freshId now hj hw hfind]
  constructor
  · intro hnone
    refine ⟨_, rfl, ?_⟩
    simp [insertFromWrites, computeAppWrites, hnone]
  · intro v hv
    refine ⟨_, rfl, ?_⟩
    simp [insertFromWrites, computeAppWrites, hv]

/-- C4 counterexample to the claim as stated: a first submit whose payload
carries `status: "accepted"` inserts an application with status
`accepted`, not `pending`. -/
theorem proposal_insert_status_counterexample :
    (postApplication ⟨"j1", "w1", "", "", "", "", "", "", some "accepted", none, none⟩
        [] none [] none "F" 3).code = 201 ∧
    ((postApplication ⟨"j1", "w1", "", "", "", "", "", "", some "accepted", none, none⟩
        [] none [] none "F" 3).application.map ApplicationDoc.status) = some "accepted" ∧
    (some "accepted" : Option String) ≠ some "pending" := by
  refine ⟨by decide, by decide, by decide⟩

/-- C4 witness: with no `status` key the inserted proposal is pending. -/
theorem proposal_insert_status_default_witness :
    ∃ d, (postApplication ⟨"j1", "w1", "", "", "", "", "", "", none, none, none⟩
        [] none [] none "F" 3).application = some d ∧ d.status = "pending" :=
  (proposal_insert_status_default ⟨"j1", "w1", "", "", "", "", "", "", none, none, none⟩
      [] none [] none "F" 3 (by decide) (by decide) (by decide)).1 rfl

/-! ## C7: identity preservation and backfill scope on proposal update -/

lemma applyWrite_field (c e : String) :
    ((if c != "" then some c else none).getD e) = jsOr c e := by
  by_cases hc : c = "" <;> simp [hc, jsOr]

lemma jsOr_ne_empty (c : String) {e : String} (he : e ≠ "") : jsOr c e ≠ "" := by
  by_cases hc : c = ""
  · simp [jsOr, hc, he]
  · simp [jsOr, hc]

lemma getD_guard (c e : String) : (if c = "" then none else some c).getD e = jsOr c e := by
  by_cases hc : c = "" <;> simp [hc, jsOr]

lemma computeAppWrites_resolver_indep
    (b : AppBody) (j w : String) (ex : ApplicationDoc) (jobDoc : Option JobDoc)
    (users users' : List UserDoc) (fire fire' : Option FireUser)
    (hneed : needsWorkerBackfillB b (some ex) = false) :
    computeAppWrites b j w (some ex) jobDoc users fire
      = computeAppWrites b j w (some ex) jobDoc users' fire' := by
  simp [computeAppWrites, hneed]

/-- C7 (amended): on an update of a pending proposal, identity fields that
are non-empty on the stored document are never overwritten with an empty
value, and fields outside the request (status, proposal text, `createdAt`,
the key pair) are untouched except `updatedAt`.  The resolver is consulted
only when the `needsWorkerBackfill` gate fires — some worker field missing
on the request and some worker field missing on the stored document — but
when it fires, each worker field resolves as request value, else resolver
value, else stored value: a resolver value can thus replace a non-empty
stored field whenever the request omits it (the gate is one flag for all
three fields, not per-field as the claim states). -/
theorem proposal_identity_backfill_scope
    (b : AppBody) (apps : List ApplicationDoc) (jobDoc : Option JobDoc)
    (users : List UserDoc) (fire : Option FireUser) (freshId : String) (now : Nat)
    (ex : ApplicationDoc)
    (hj : jsTrim b.jobId ≠ "") (hw : jsTrim b.workerId ≠ "")
    (hfind : apps.find?
        (fun a => a.jobId == jsTrim b.jobId && a.workerId == jsTrim b.workerId) = some ex)
    (hpend : jsToLower (jsOr ex.status "pending") = "pending") :
    (∀ d, (postApplication b apps jobDoc users fire freshId now).application = some d →
      ((ex.workerEmail ≠ "" → d.workerEmail ≠ "") ∧
       (ex.workerName ≠ "" → d.workerName ≠ "") ∧
       (ex.workerPhone ≠ "" → d.workerPhone ≠ "") ∧
       (ex.clientId ≠ "" → d.clientId ≠ "") ∧
       (ex.clientEmail ≠ "" → d.clientEmail ≠ "")) ∧
      (b.status = none → d.status = ex.status) ∧
      (b.proposalText = none → b.text = none → d.proposalText = ex.proposalText) ∧
      d.createdAt = ex.createdAt ∧ d.jobId = ex.jobId ∧ d.workerId = ex.workerId ∧
      d.oid = ex.oid ∧ d.updatedAt = now) ∧
    (needsWorkerBackfillB b (some ex) = false →
      ∀ users' fire', postApplication b apps jobDoc users fire freshId now
        = postApplication b apps jobDoc users' fire' freshId now) ∧
    (needsWorkerBackfillB b (some ex) = true →
      ∀ d, (postApplication b apps jobDoc users fire freshId now).application = some d →
        d.workerName
          = jsOr (jsOr (jsTrim b.workerName)
              (getWorkerIdentity (jsTrim b.workerId) users fire).name) ex.workerName ∧
        d.workerEmail
          = jsOr (jsOr (jsToLower (jsTrim (jsOr b.workerEmail b.postedByEmail)))
              (getWorkerIdentity (jsTrim b.workerId) users fire).email) ex.workerEmail ∧
        d.workerPhone
          = jsOr (jsOr (jsTrim b.workerPhone)
              (getWorkerIdentity (jsTrim b.workerId) users fire).phone) ex.workerPhone) := by
  have hpath := postApplication_update_path b apps jobDoc users fire freshId now ex hj hw hfind hpend
  refine ⟨?_, ?_, ?_⟩
  · intro d hd
    rw [hpath] at hd
    rcases Option.some.inj hd with rfl
    refine ⟨⟨?_, ?_, ?_, ?_, ?_⟩, ?_, ?_, rfl, rfl, rfl, rfl, rfl⟩
    · intro he
      simp only [applyAppWrites, computeAppWrites, applyWrite_field]
      exact jsOr_ne_empty _ he
    · intro he
      simp only [applyAppWrites, computeAppWrites, applyWrite_field]
      exact jsOr_ne_empty _ he
    · intro he
      simp only [applyAppWrites, computeAppWrites, applyWrite_field]
      exact jsOr_ne_empty _ he
    · intro he
      simp only [applyAppWrites, computeAppWrites, applyWrite_field]
      exact jsOr_ne_empty _ he
    · intro he
      simp only [applyAppWrites, computeAppWrites, applyWrite_field]
      exact jsOr_ne_empty _ he
    · intro hnone
      simp [applyAppWrites, computeAppWrites, hnone]
    · intro hp ht
      simp [applyAppWrites, computeAppWrites, hp, ht]
  · intro hneed users' fire'
    rw [hpath,
      postApplication_update_path b apps jobDoc users' fire' freshId now ex hj hw hfind hpend,
      computeAppWrites_resolver_indep b _ _ ex jobDoc users users' fire fire' hneed]
  · intro hneed d hd
    rw [hpath] at hd
    rcases Option.some.inj hd with rfl
    refine ⟨?_, ?_, ?_⟩ <;>
      simp [applyAppWrites, computeAppWrites, hneed, applyWrite_field, getD_guard]

/-- C7 counterexample to the claim as stated: the request omits every
worker identity field, the stored document misses only `workerEmail`, yet
the resolver backfill also rewrites `workerName` — a field absent on the
request but present on the existing document — replacing the stored
`"Nadia"` with the resolver value. -/
theorem proposal_backfill_overwrite_counterexample :
    ((postApplication ⟨"j1", "w1", "", "", "", "", "", "", none, none, none⟩
        [(⟨"x1", "j1", "w1", "", "", "", "Nadia", "0123", "", "", "pending", 0, 0⟩ : ApplicationDoc)]
        none
        [(⟨"w1", "", "Resolver Name", "", "", ""⟩ : UserDoc)]
        none "F" 9).application.map ApplicationDoc.workerName) = some "Resolver Name" ∧
    (⟨"x1", "j1", "w1", "", "", "", "Nadia", "0123", "", "", "pending", 0, 0⟩ : ApplicationDoc).workerName
      = "Nadia" ∧
    (⟨"j1", "w1", "", "", "", "", "", "", none, none, none⟩ : AppBody).workerName = "" ∧
    ("Resolver Name" : String) ≠ "Nadia" := by
  refine ⟨by decide, rfl, rfl, by decide⟩

/-- C7 witness: concrete instance of the preservation clauses — the update
of a fully populated pending proposal by a request that omits every field
keeps the stored identity (non-empty `workerName` survives), keeps
`createdAt`, and refreshes `updatedAt`. -/
theorem proposal_identity_backfill_scope_witness :
    (⟨"x1", "j1", "w1", "c0", "e0", "we0", "Nadia", "0123", "", "", "pending", 0, 9⟩ : ApplicationDoc).workerName
      ≠ "" ∧
    (⟨"x1", "j1", "w1", "c0", "e0", "we0", "Nadia", "0123", "", "", "pending", 0, 9⟩ : ApplicationDoc).createdAt
      = 0 ∧
    (⟨"x1", "j1", "w1", "c0", "e0", "we0", "Nadia", "0123", "", "", "pending", 0, 9⟩ : ApplicationDoc).updatedAt
      = 9 := by
  have h := (proposal_identity_backfill_scope
    ⟨"j1", "w1", "", "", "", "", "", "", none, none, none⟩
    [(⟨"x1", "j1", "w1", "c0", "e0", "we0", "Nadia", "0123", "", "", "pending", 0, 0⟩ : ApplicationDoc)]
    none [] none "F" 9
    (⟨"x1", "j1", "w1", "c0", "e0", "we0", "Nadia", "0123", "", "", "pending", 0, 0⟩ : ApplicationDoc)
    (by decide) (by decide) (by decide) (by decide)).1
    (⟨"x1", "j1", "w1", "c0", "e0", "we0", "Nadia", "0123", "", "", "pending", 0, 9⟩ : ApplicationDoc)
    (by decide)
  exact ⟨h.1.2.1 (by decide), h.2.2.2.1, h.2.2.2.2.2.2.2⟩

/-! ## C1: notification fan-out per lifecycle event -/

/-- C1 (amended): of the six lifecycle events, application accepted,
application rejected (one notification to the worker), new message (one to
the recipient, on either ingress path) and job expired (one per eligible
job, to the owning client) each persist exactly one Notification; the
new-application path persists none (it only dispatches an email, source
lines 962-999), and the job-status-change path persists none on any input
(its notification call sits after the line-2071 ReferenceError, so the
handler answers 500 before reaching it). -/
theorem lifecycle_fanout_per_event :
    (∀ b apps jobDoc users fire freshId now,
      (postApplication b apps jobDoc users fire freshId now).notifs = []) ∧
    (∀ id bStatus apps jobs now oldDoc,
      isValidObjectId id = true →
      (jsTrim (jsToLower (jsOr bStatus "")) = "accepted" ∨
       jsTrim (jsToLower (jsOr bStatus "")) = "rejected") →
      apps.find? (fun a => a.oid == id) = some oldDoc →
      jsToLower (jsOr oldDoc.status "pending") ≠ jsTrim (jsToLower (jsOr bStatus "")) →
      oldDoc.workerId ≠ "" →
      (patchApplication id bStatus apps jobs now).notifs.length = 1 ∧
      ∀ n ∈ (patchApplication id bStatus apps jobs now).notifs, n.userId = oldDoc.workerId) ∧
    (∀ id bClientId bStatus jobs now,
      (patchBrowseJob id bClientId bStatus jobs now).notifs = []) ∧
    (∀ b jobs now, (postMessage b jobs now).ok = true →
      (postMessage b jobs now).notifs.length = 1 ∧
      ∀ n ∈ (postMessage b jobs now).notifs, n.userId = b.recipientId) ∧
    (∀ b jobs now, (socketMessageSend b jobs now).ok = true →
      (socketMessageSend b jobs now).notifs.length = 1 ∧
      ∀ n ∈ (socketMessageSend b jobs now).notifs, n.userId = b.recipientId) ∧
    (∀ jobs now, (runExpirationSweep jobs now).2
        = (jobs.filter (expiredMatch now)).bind (fun j => sweepNoteFor j now)) ∧
    (∀ (j : JobDoc) (now : Nat), j.clientId ≠ "" →
      ∃ n, sweepNoteFor j now = [n] ∧ n.userId = j.clientId) := by
  refine ⟨?_, ?_, ?_, ?_, ?_, ?_, ?_⟩
  · intro b apps jobDoc users fire freshId now
    by_cases h1 : jsTrim b.jobId = ""
    · simp [postApplication, h1]
    · by_cases h2 : jsTrim b.workerId = ""
      · simp [postApplication, h1, h2]
      · rcases hfind : apps.find?
            (fun a => a.jobId == jsTrim b.jobId && a.workerId == jsTrim b.workerId) with _ | ex
        · simp [postApplication, h1, h2, hfind]
        · by_cases h3 : jsToLower (jsOr ex.status "pending") = "pending"
          · by_cases h4 : ex.workerId = jsTrim b.workerId
            · simp [postApplication, h1, h2, hfind, h3, h4]
            · simp [postApplication, h1, h2, hfind, h3, h4]
          · simp [postApplication, h1, h2, hfind, h3]
  · intro id bStatus apps jobs now oldDoc hid hst hfind hch hwid
    have hmem : jsTrim (jsToLower (jsOr bStatus "")) ∈ appAllowedStatuses := by
      rcases hst with h | h <;> simp [appAllowedStatuses, h]
    have hupd := find?_updateFirstBy apps (fun a => a.oid == id)
      (fun a => { a with status := jsTrim (jsToLower (jsOr bStatus "")), updatedAt := now })
      oldDoc hfind (fun x hx => hx)
    have hcond : (jsTrim (jsToLower (jsOr bStatus "")) = "accepted" ∨
        jsTrim (jsToLower (jsOr bStatus "")) = "rejected") := hst
    constructor
    · simp [patchApplication, hid, hmem, hfind, hupd, hch, hcond, hwid, createNotification]
    · intro n hn
      simp [patchApplication, hid, hmem, hfind, hupd, hch, hcond, hwid, createNotification] at hn
      rw [hn]
  · intro id bClientId bStatus jobs now
    by_cases h1 : isValidObjectId id = true
    · rcases hfind : jobs.find? (fun j => j.oid == id) with _ | job
      · simp [patchBrowseJob, h1, hfind]
      · by_cases h2 : (bClientId != "" && job.clientId != "" && job.clientId != bClientId) = true
        · simp [patchBrowseJob, h1, hfind, h2]
        · by_cases h3 : (jsTruthy bStatus &&
              ! jobTransitionCheck (jsToLower (jsOr job.status "active"))
                (jsToLower (bStatus.getD ""))) = true
          · simp [patchBrowseJob, h1, hfind, h2, h3]
          · by_cases h4 : jsTruthy bStatus = true
            · simp [patchBrowseJob, h1, hfind, h2, h3, h4]
              split <;> rfl
            · simp [patchBrowseJob, h1, hfind, h2, h3, h4]
    · simp [patchBrowseJob, h1]
  · intro b jobs now hok
    by_cases hv : (b.senderId == "" || b.recipientId == "" || b.message == "") = true
    · rw [postMessage] at hok
      simp [hv] at hok
    · have hv' : (b.senderId == "" || b.recipientId == "" || b.message == "") = false := by
        simpa using hv
      have hrec : ¬ b.recipientId = "" := by
        intro h
        simp [h] at hv'
      constructor
      · simp [postMessage, hv', createNotification, hrec]
      · intro n hn
        simp [postMessage, hv', createNotification, hrec] at hn
        rw [hn]
  · intro b jobs now hok
    by_cases hv : (b.senderId == "" || b.recipientId == "" || b.message == "") = true
    · rw [socketMessageSend] at hok
      simp [hv] at hok
    · have hv' : (b.senderId == "" || b.recipientId == "" || b.message == "") = false := by
        simpa using hv
      have hrec : ¬ b.recipientId = "" := by
        intro h
        simp [h] at hv'
      constructor
      · simp [socketMessageSend, hv', createNotification, hrec]
      · intro n hn
        simp [socketMessageSend, hv', createNotification, hrec] at hn
        rw [hn]
  · intro jobs now
    exact sweepGo_snd _ _ _
  · intro j now hc
    refine ⟨⟨j.clientId, "Job Expired", expiredNotifText j, "info",
      jsOrNull (some ("/My-Posted-Job-Details/" ++ j.oid)), jsOrNull (some j.oid), false, now⟩,
      ?_, rfl⟩
    simp [sweepNoteFor, createNotification, hc]

/-- C1 counterexample to the claim as stated: a successful first submit of
an application (the new-application event, response 201) persists zero
Notification documents, not exactly one for the client. -/
theorem new_application_no_notification_counterexample :
    (postApplication ⟨"j1", "w1", "", "", "", "", "", "", none, none, none⟩
        [] none [] none "F" 1).code = 201 ∧
    (postApplication ⟨"j1", "w1", "", "", "", "", "", "", none, none, none⟩
        [] none [] none "F" 1).notifs = [] := by
  refine ⟨by decide, by decide⟩

/-- C1 witness: accepting a concrete pending application fans out exactly
one notification, addressed to the worker. -/
theorem lifecycle_fanout_per_event_witness :
    (patchApplication "aaaaaaaaaaaaaaaaaaaaaaaa" "accepted"
        [(⟨"aaaaaaaaaaaaaaaaaaaaaaaa", "j1", "w1", "", "", "", "", "", "", "", "pending", 0, 0⟩ : ApplicationDoc)]
        [] 3).notifs.length = 1 ∧
    ∀ n ∈ (patchApplication "aaaaaaaaaaaaaaaaaaaaaaaa" "accepted"
        [(⟨"aaaaaaaaaaaaaaaaaaaaaaaa", "j1", "w1", "", "", "", "", "", "", "", "pending", 0, 0⟩ : ApplicationDoc)]
        [] 3).notifs, n.userId = "w1" :=
  lifecycle_fanout_per_event.2.1 "aaaaaaaaaaaaaaaaaaaaaaaa" "accepted"
    [(⟨"aaaaaaaaaaaaaaaaaaaaaaaa", "j1", "w1", "", "", "", "", "", "", "", "pending", 0, 0⟩ : ApplicationDoc)]
    [] 3
    (⟨"aaaaaaaaaaaaaaaaaaaaaaaa", "j1", "w1", "", "", "", "", "", "", "", "pending", 0, 0⟩ : ApplicationDoc)
    (by decide) (by decide) (by decide) (by decide) (by decide)

end HireMistri
